import Mathlib

/-!
Verification of the frame-sampling and frame-analysis pipeline of
marine-object-counter-web (src/cv.ts: `processVideoInBrowser`,
`getFrameForDisplay`; src/App.tsx: `handleShowImage`).

The embedding models numbers with exact rational arithmetic (`ℚ`), the
browser facilities the two cv.ts functions consume (the 2d canvas context,
video metadata loading, and OpenCV's `countNonZero` over the binarized
frame at a seek time) as an explicit environment record, and each
`reject(new Error(...))` call site as a distinct error constructor.  A run
is modelled as the value the promise settles with together with the
observable effects the claims speak about: the seek times, the arguments
passed to `onProgress`, and whether `URL.createObjectURL` /
`URL.revokeObjectURL` were called.
-/

/-- One point of the output series (cv.ts `interface FrameData`). -/
structure FrameData where
  ratio : ℚ
  depth : ℚ
  deriving DecidableEq

/-- The resolved value of a successful run (cv.ts `interface ProcessResult`). -/
structure ProcessResult where
  ratios : List FrameData
  duration : ℚ
  deriving DecidableEq

/-- One constructor per `reject(new Error(...))` call site in cv.ts:
OpenCV not loaded, canvas context acquisition failure, the two
configuration checks of `processVideoInBrowser` (non-positive sample
count, non-positive time interval), and video load failure (`onerror`). -/
inductive ProcError where
  | cvNotReady
  | ctxFail
  | configSampleCount
  | configTimeInterval
  | loadFail
  deriving DecidableEq

/-- The browser facilities cv.ts consumes, as an explicit environment:
whether `window.cv` is defined, whether `canvas.getContext('2d')` succeeds,
whether the video loads (`onloadedmetadata` vs `onerror`), the video's
metadata, and the foreground-pixel count OpenCV's `countNonZero` reports
for the binarized frame, as a function of the threshold and the seek time. -/
structure VideoEnv where
  cvReady : Bool
  ctxOk : Bool
  loadOk : Bool
  duration : ℚ
  videoWidth : ℕ
  videoHeight : ℕ
  countNonZero : ℚ → ℚ → ℕ

instance {ε α : Type} [DecidableEq ε] [DecidableEq α] : DecidableEq (Except ε α) :=
  fun a b =>
  match a, b with
  | Except.error e, Except.error f => decidable_of_iff (e = f) (by simp)
  | Except.error _, Except.ok _ => isFalse (fun h => Except.noConfusion h)
  | Except.ok _, Except.error _ => isFalse (fun h => Except.noConfusion h)
  | Except.ok x, Except.ok y => decidable_of_iff (x = y) (by simp)

/-- What one call of `processVideoInBrowser` settles with, plus the
observable effects the specification speaks about: the times seeked, the
arguments passed to `onProgress` in order, and whether the object URL of
the video file was created and revoked. -/
structure RunOutcome where
  result : Except ProcError ProcessResult
  seeks : List ℚ
  progress : List ℚ
  urlCreated : Bool
  urlRevoked : Bool
  deriving DecidableEq

/-- The per-frame ratio computation of cv.ts lines 253-255:
`totalPixels = binary.rows * binary.cols`, `whitePixels = countNonZero + trim`,
`whiteRatio = totalPixels > 0 ? whitePixels / totalPixels : 0`. -/
def ratioOf (rows cols : ℕ) (count : ℕ) (trim : ℚ) : ℚ :=
  let totalPixels : ℚ := (rows : ℚ) * (cols : ℚ)
  let whitePixels : ℚ := (count : ℚ) + trim
  if totalPixels > 0 then whitePixels / totalPixels else 0

/-- The sampling loop of cv.ts lines 241-264:
`for (let currentTime = 0; currentTime < duration; currentTime += timeInterval)`.
Each iteration seeks `currentTime`, pushes
`{ ratio: ratioAt currentTime, depth: currentTime / duration * depth }` and
calls `onProgress(currentTime / duration)`.  Returned are the seek times,
the pushed samples and the progress arguments, in order.  The loop is
embedded with a fuel argument for termination; the caller passes
`⌈duration / timeInterval⌉.toNat`, which `sampleLoop_eq` proves sufficient,
so the fuel never cuts the loop short. -/
def sampleLoop (ratioAt : ℚ → ℚ) (dur dt dep : ℚ) :
    ℕ → ℚ → List ℚ × List FrameData × List ℚ
  | 0, _ => ([], [], [])
  | fuel + 1, currentTime =>
    if currentTime < dur then
      let rest := sampleLoop ratioAt dur dt dep fuel (currentTime + dt)
      (currentTime :: rest.1,
       { ratio := ratioAt currentTime, depth := currentTime / dur * dep } :: rest.2.1,
       (currentTime / dur) :: rest.2.2)
    else ([], [], [])

/-- cv.ts lines 198-276, `processVideoInBrowser(videoFile, depth, scale,
threshold, trim, onProgress)`: reject if OpenCV is missing; create the
object URL; reject if the canvas context cannot be acquired; on `onerror`
reject and revoke the URL; on `onloadedmetadata` check
`totalSamples = depth / scale` and `timeInterval = duration / totalSamples`,
rejecting when either is `≤ 0`; otherwise call `onProgress(0)`, run the
sampling loop, call `onProgress(1)`, revoke the URL and resolve with
`{ ratios, duration }`. -/
def processVideoInBrowser (env : VideoEnv) (depth scale threshold trim : ℚ) :
    RunOutcome :=
  if env.cvReady = false then
    { result := Except.error ProcError.cvNotReady, seeks := [], progress := [],
      urlCreated := false, urlRevoked := false }
  else if env.ctxOk = false then
    { result := Except.error ProcError.ctxFail, seeks := [], progress := [],
      urlCreated := true, urlRevoked := false }
  else if env.loadOk = false then
    { result := Except.error ProcError.loadFail, seeks := [], progress := [],
      urlCreated := true, urlRevoked := true }
  else
    let totalSamples := depth / scale
    if totalSamples ≤ 0 then
      { result := Except.error ProcError.configSampleCount, seeks := [], progress := [],
        urlCreated := true, urlRevoked := false }
    else
      let timeInterval := env.duration / totalSamples
      if timeInterval ≤ 0 then
        { result := Except.error ProcError.configTimeInterval, seeks := [], progress := [],
          urlCreated := true, urlRevoked := false }
      else
        let ratioAt := fun t =>
          ratioOf env.videoHeight env.videoWidth (env.countNonZero threshold t) trim
        let r := sampleLoop ratioAt env.duration timeInterval depth
          (⌈env.duration / timeInterval⌉).toNat 0
        { result := Except.ok { ratios := r.2.1, duration := env.duration },
          seeks := r.1, progress := 0 :: r.2.2 ++ [1],
          urlCreated := true, urlRevoked := true }

/-- What one call of `getFrameForDisplay` settles with (on success, the
time actually seeked before the two `ImageData` reads), and whether the
object URL was created and revoked. -/
structure FrameOutcome where
  result : Except ProcError ℚ
  urlCreated : Bool
  urlRevoked : Bool
  deriving DecidableEq

/-- cv.ts lines 285-341, `getFrameForDisplay(videoFile, time, threshold)`:
reject if OpenCV is missing; create the object URL; reject if the canvas
context cannot be acquired; on `onerror` reject and revoke the URL; on
`onloadedmetadata` seek `Math.min(Math.max(0, time), video.duration)`,
read the original and binarized frames, revoke the URL and resolve. -/
def getFrameForDisplay (env : VideoEnv) (time threshold : ℚ) : FrameOutcome :=
  if env.cvReady = false then
    { result := Except.error ProcError.cvNotReady, urlCreated := false, urlRevoked := false }
  else if env.ctxOk = false then
    { result := Except.error ProcError.ctxFail, urlCreated := true, urlRevoked := false }
  else if env.loadOk = false then
    { result := Except.error ProcError.loadFail, urlCreated := true, urlRevoked := true }
  else
    { result := Except.ok (min (max 0 time) env.duration),
      urlCreated := true, urlRevoked := true }

/-- The frame viewer's selector (App.tsx `viewerMode`): the radio values
`depth`, `frame`, `seconds`, and any other string (the switch's default). -/
inductive ViewerMode where
  | depth
  | frame
  | seconds
  | other
  deriving DecidableEq

/-- What `handleShowImage` does after resolving the target time: return
silently (the switch's default case), set the out-of-range error status,
or proceed to fetch the frame at the resolved time. -/
inductive ViewerOutcome where
  | noOp
  | outOfRange
  | showFrame (targetTime : ℚ)
  deriving DecidableEq

/-- App.tsx lines 86-105, the target-time resolution and range check of
`handleShowImage`: `totalSamples = depth / scale`; `targetTime` is
`(viewerValue / depth) * videoDuration` in depth mode,
`(viewerValue / totalSamples) * videoDuration` in frame mode,
`viewerValue` in seconds mode, and the default case returns; then
`targetTime < 0 || targetTime > videoDuration` is the range error. -/
def handleShowImage (mode : ViewerMode) (viewerValue depth scale videoDuration : ℚ) :
    ViewerOutcome :=
  let totalSamples := depth / scale
  let targetTime? : Option ℚ :=
    match mode with
    | ViewerMode.depth => some (viewerValue / depth * videoDuration)
    | ViewerMode.frame => some (viewerValue / totalSamples * videoDuration)
    | ViewerMode.seconds => some viewerValue
    | ViewerMode.other => none
  match targetTime? with
  | none => ViewerOutcome.noOp
  | some targetTime =>
    if targetTime < 0 ∨ targetTime > videoDuration then ViewerOutcome.outOfRange
    else ViewerOutcome.showFrame targetTime

/-- The samples of a run: the resolved series on success, `[]` on rejection. -/
def runRatios (o : RunOutcome) : List FrameData :=
  match o.result with
  | Except.ok r => r.ratios
  | Except.error _ => []

/-- A synthetic decoder for the concrete scenarios: a 10-second video of
10x10 frames on which the binarized frame always has 30 foreground pixels
(so the analyzer reports ratio 3/10 with trim 0). -/
def syntheticEnv : VideoEnv :=
  { cvReady := true, ctxOk := true, loadOk := true, duration := 10,
    videoWidth := 10, videoHeight := 10, countNonZero := fun _ _ => 30 }

/-- The synthetic decoder with canvas-context acquisition failing. -/
def ctxFailEnv : VideoEnv :=
  { syntheticEnv with ctxOk := false }

/-- The synthetic decoder with the video failing to load (`onerror`). -/
def loadFailEnv : VideoEnv :=
  { syntheticEnv with loadOk := false }

/-- How many iterations the sampling loop still runs when the counter
stands at `t`: the number of steps of size `dt` from `t` that stay
strictly below `dur`. -/
def loopCount (dur dt t : ℚ) : ℕ :=
  (⌈(dur - t) / dt⌉).toNat

/-- The loop's remaining seek times when the counter stands at `t`. -/
def timesFrom (dt : ℚ) : ℕ → ℚ → List ℚ
  | 0, _ => []
  | n + 1, t => t :: timesFrom dt n (t + dt)

lemma loopCount_eq_zero {dur dt t : ℚ} (hdt : 0 < dt) (h : ¬ t < dur) :
    loopCount dur dt t = 0 := by
  have h1 : (dur - t) / dt ≤ 0 :=
    div_nonpos_iff.mpr (Or.inr ⟨sub_nonpos.mpr (not_lt.mp h), hdt.le⟩)
  have h2 : ⌈(dur - t) / dt⌉ ≤ 0 := by
    rw [show (0 : ℤ) = ⌈(0 : ℚ)⌉ by simp]
    exact Int.ceil_le_ceil h1
  unfold loopCount
  omega

lemma loopCount_succ {dur dt t : ℚ} (hdt : 0 < dt) (h : t < dur) :
    loopCount dur dt t = loopCount dur dt (t + dt) + 1 := by
  have hne : dt ≠ 0 := ne_of_gt hdt
  have key : (dur - (t + dt)) / dt = (dur - t) / dt - 1 := by
    field_simp
    ring
  have hpos : (0 : ℤ) < ⌈(dur - t) / dt⌉ :=
    Int.ceil_pos.mpr (div_pos (sub_pos.mpr h) hdt)
  unfold loopCount
  rw [key, Int.ceil_sub_one]
  omega

lemma timesFrom_eq (dt : ℚ) (n : ℕ) :
    ∀ t : ℚ, timesFrom dt n t = (List.range n).map (fun k : ℕ => t + (k : ℚ) * dt) := by
  induction n with
  | zero => intro t; simp [timesFrom]
  | succ n ih =>
    intro t
    rw [timesFrom, ih (t + dt), List.range_succ_eq_map, List.map_cons, List.map_map]
    refine congrArg₂ _ (by push_cast; ring) (List.map_congr_left fun k _ => ?_)
    simp only [Function.comp_apply]
    push_cast
    ring

/-- The sampling loop, run with enough fuel, visits exactly the times
`t, t + dt, ...` strictly below `dur`, pushes one sample per visited time
and reports one progress value per visited time. -/
lemma sampleLoop_eq (ratioAt : ℚ → ℚ) (dur dt dep : ℚ) (hdt : 0 < dt) (fuel : ℕ) :
    ∀ t : ℚ, loopCount dur dt t ≤ fuel →
      sampleLoop ratioAt dur dt dep fuel t =
        (timesFrom dt (loopCount dur dt t) t,
         (timesFrom dt (loopCount dur dt t) t).map (fun s =>
           { ratio := ratioAt s, depth := s / dur * dep }),
         (timesFrom dt (loopCount dur dt t) t).map (fun s => s / dur)) := by
  induction fuel with
  | zero =>
    intro t hfuel
    have h0 : loopCount dur dt t = 0 := Nat.le_zero.mp hfuel
    simp [sampleLoop, h0, timesFrom]
  | succ fuel ih =>
    intro t hfuel
    by_cases h : t < dur
    · have hstep : loopCount dur dt t = loopCount dur dt (t + dt) + 1 :=
        loopCount_succ hdt h
      have hrec := ih (t + dt) (by omega)
      simp [sampleLoop, if_pos h, hrec, hstep, timesFrom]
    · have h0 : loopCount dur dt t = 0 := loopCount_eq_zero hdt h
      simp [sampleLoop, if_neg h, h0, timesFrom]

/-- With `dur ≠ 0`, the loop starting at `0` with step `dur / ts` runs
`⌈ts⌉.toNat` times. -/
lemma loopCount_zero (dur ts : ℚ) (hdur : dur ≠ 0) :
    loopCount dur (dur / ts) 0 = (⌈ts⌉).toNat := by
  unfold loopCount
  rw [sub_zero, div_div_eq_mul_div, mul_comm, mul_div_assoc, div_self hdur, mul_one]

/-- On a successful run, `processVideoInBrowser` in closed form: the seeks
are `0, dt, 2*dt, ...` strictly below the duration with
`dt = duration / (depth / scale)`, one pushed sample and one mid-progress
value per seek, the URL created and revoked. -/
lemma processVideoInBrowser_ok (env : VideoEnv) (depth scale threshold trim : ℚ)
    (hcv : env.cvReady = true) (hctx : env.ctxOk = true) (hload : env.loadOk = true)
    (hts : 0 < depth / scale) (hti : 0 < env.duration / (depth / scale)) :
    processVideoInBrowser env depth scale threshold trim =
      { result := Except.ok
          { ratios := (timesFrom (env.duration / (depth / scale))
              (loopCount env.duration (env.duration / (depth / scale)) 0) 0).map (fun s =>
                { ratio := ratioOf env.videoHeight env.videoWidth
                    (env.countNonZero threshold s) trim,
                  depth := s / env.duration * depth }),
            duration := env.duration },
        seeks := timesFrom (env.duration / (depth / scale))
          (loopCount env.duration (env.duration / (depth / scale)) 0) 0,
        progress := 0 :: (timesFrom (env.duration / (depth / scale))
          (loopCount env.duration (env.duration / (depth / scale)) 0) 0).map
            (fun s => s / env.duration) ++ [1],
        urlCreated := true, urlRevoked := true } := by
  have hloop := sampleLoop_eq
    (fun t => ratioOf env.videoHeight env.videoWidth (env.countNonZero threshold t) trim)
    env.duration (env.duration / (depth / scale)) depth hti
    ((⌈env.duration / (env.duration / (depth / scale))⌉).toNat) 0
    (le_of_eq (by unfold loopCount; rw [sub_zero]))
  simp only [processVideoInBrowser, hcv, hctx, hload, hts.not_le, hti.not_le,
    if_false, Bool.true_eq_false, if_neg, ite_false, hloop]

/-- Every time the loop visits, starting from `0`, lies in `[0, dur)`. -/
lemma timesFrom_zero_mem {dur dt s : ℚ} (hdt : 0 < dt)
    (hs : s ∈ timesFrom dt (loopCount dur dt 0) 0) : 0 ≤ s ∧ s < dur := by
  rw [timesFrom_eq] at hs
  simp only [List.mem_map, List.mem_range] at hs
  obtain ⟨k, hk, rfl⟩ := hs
  have hk2 : ((k : ℤ) : ℚ) < (dur - 0) / dt := Int.lt_ceil.mp (Int.lt_toNat.mp hk)
  constructor
  · have : (0 : ℚ) ≤ (k : ℚ) * dt := mul_nonneg (Nat.cast_nonneg k) hdt.le
    linarith
  · have : (k : ℚ) * dt < dur - 0 := (lt_div_iff₀ hdt).mp (by exact_mod_cast hk2)
    linarith

/-- The loop's visit times are non-decreasing (for a non-negative step). -/
lemma timesFrom_pairwise {dt : ℚ} (hdt : 0 ≤ dt) (n : ℕ) (t : ℚ) :
    (timesFrom dt n t).Pairwise (· ≤ ·) := by
  rw [timesFrom_eq]
  refine List.pairwise_map.mpr (List.pairwise_lt_range n |>.imp fun h => ?_)
  exact add_le_add_left
    (mul_le_mul_of_nonneg_right (Nat.cast_le.mpr (le_of_lt h)) hdt) t

lemma timesFrom_length (dt : ℚ) (n : ℕ) (t : ℚ) : (timesFrom dt n t).length = n := by
  rw [timesFrom_eq]; simp

/-- The synthetic scenario's loop runs 20 times
(`duration = 10`, `totalDepth = 100`, `scale = 5`). -/
lemma synthetic_count :
    loopCount syntheticEnv.duration (syntheticEnv.duration / (100 / 5)) 0 = 20 := by
  norm_num [loopCount, syntheticEnv]
  rfl

/-- Outcome when `window.cv` is undefined: rejection before the object URL
is created. -/
lemma run_cv_missing (env : VideoEnv) (depth scale threshold trim : ℚ)
    (h : env.cvReady = false) :
    processVideoInBrowser env depth scale threshold trim =
      { result := Except.error ProcError.cvNotReady, seeks := [], progress := [],
        urlCreated := false, urlRevoked := false } := by
  simp [processVideoInBrowser, h]

/-- Outcome when the canvas context cannot be acquired: rejection with the
object URL created but not revoked. -/
lemma run_ctx_fail (env : VideoEnv) (depth scale threshold trim : ℚ)
    (hcv : env.cvReady = true) (h : env.ctxOk = false) :
    processVideoInBrowser env depth scale threshold trim =
      { result := Except.error ProcError.ctxFail, seeks := [], progress := [],
        urlCreated := true, urlRevoked := false } := by
  simp [processVideoInBrowser, hcv, h]

/-- Outcome when the video fails to load: rejection with the object URL
revoked by the `onerror` handler. -/
lemma run_load_fail (env : VideoEnv) (depth scale threshold trim : ℚ)
    (hcv : env.cvReady = true) (hctx : env.ctxOk = true) (h : env.loadOk = false) :
    processVideoInBrowser env depth scale threshold trim =
      { result := Except.error ProcError.loadFail, seeks := [], progress := [],
        urlCreated := true, urlRevoked := true } := by
  simp [processVideoInBrowser, hcv, hctx, h]

/-- Outcome of the first configuration check (`totalSamples <= 0`):
rejection with the object URL created but not revoked. -/
lemma run_config₁ (env : VideoEnv) (depth scale threshold trim : ℚ)
    (hcv : env.cvReady = true) (hctx : env.ctxOk = true) (hload : env.loadOk = true)
    (h : depth / scale ≤ 0) :
    processVideoInBrowser env depth scale threshold trim =
      { result := Except.error ProcError.configSampleCount, seeks := [], progress := [],
        urlCreated := true, urlRevoked := false } := by
  simp [processVideoInBrowser, hcv, hctx, hload, h]

/-- Outcome of the second configuration check (`timeInterval <= 0`):
rejection with the object URL created but not revoked. -/
lemma run_config₂ (env : VideoEnv) (depth scale threshold trim : ℚ)
    (hcv : env.cvReady = true) (hctx : env.ctxOk = true) (hload : env.loadOk = true)
    (h1 : ¬ depth / scale ≤ 0) (h2 : env.duration / (depth / scale) ≤ 0) :
    processVideoInBrowser env depth scale threshold trim =
      { result := Except.error ProcError.configTimeInterval, seeks := [], progress := [],
        urlCreated := true, urlRevoked := false } := by
  simp [processVideoInBrowser, hcv, hctx, hload, h1, h2]

/-- C2: for every run with totalDepth > 0, scale > 0 and duration > 0, the
number of samples equals `⌈duration / timeInterval⌉` with
`timeInterval = duration / (totalDepth / scale)`; `scale = totalDepth`
yields exactly one sample, taken at `t = 0`; and the synthetic scenario
`duration = 10, scale = 5, totalDepth = 100` yields 20 samples, each with
ratio `3/10`, whose depths step by `5` from `0` to `95`. -/
theorem claim_C2 (env : VideoEnv) (depth scale threshold trim : ℚ)
    (hcv : env.cvReady = true) (hctx : env.ctxOk = true) (hload : env.loadOk = true)
    (hdep : 0 < depth) (hsc : 0 < scale) (hdur : 0 < env.duration) :
    ((runRatios (processVideoInBrowser env depth scale threshold trim)).length : ℤ) =
      ⌈env.duration / (env.duration / (depth / scale))⌉
    ∧ (scale = depth →
        runRatios (processVideoInBrowser env depth scale threshold trim) =
          [{ ratio := ratioOf env.videoHeight env.videoWidth
               (env.countNonZero threshold 0) trim, depth := 0 }]
        ∧ (processVideoInBrowser env depth scale threshold trim).seeks = [0])
    ∧ (runRatios (processVideoInBrowser syntheticEnv 100 5 50 0)).length = 20
    ∧ runRatios (processVideoInBrowser syntheticEnv 100 5 50 0) =
        (List.range 20).map (fun k : ℕ => { ratio := 3 / 10, depth := 5 * (k : ℚ) }) := by
  have hts : 0 < depth / scale := div_pos hdep hsc
  have hti : 0 < env.duration / (depth / scale) := div_pos hdur hts
  have hrun := processVideoInBrowser_ok env depth scale threshold trim hcv hctx hload hts hti
  have hsynrun := processVideoInBrowser_ok syntheticEnv 100 5 50 0 rfl rfl rfl
    (by norm_num) (by norm_num [syntheticEnv])
  refine ⟨?_, ?_, ?_, ?_⟩
  · rw [hrun]
    simp only [runRatios, List.length_map, timesFrom_length]
    unfold loopCount
    rw [sub_zero]
    exact Int.toNat_of_nonneg (le_of_lt (Int.ceil_pos.mpr (div_pos hdur hti)))
  · intro heq
    subst heq
    rw [hrun]
    have h1 : scale / scale = 1 := div_self (ne_of_gt hsc)
    have hn : loopCount env.duration (env.duration / (scale / scale)) 0 = 1 := by
      rw [h1, loopCount_zero env.duration 1 (ne_of_gt hdur)]
      simp
    refine ⟨?_, ?_⟩
    · simp [runRatios, hn, timesFrom]
    · simp [hn, timesFrom]
  · rw [hsynrun]
    simp only [runRatios, List.length_map, timesFrom_length]
    exact synthetic_count
  · rw [hsynrun]
    simp only [runRatios]
    rw [timesFrom_eq, synthetic_count, List.map_map]
    refine List.map_congr_left fun k hk => ?_
    simp only [Function.comp_apply, FrameData.mk.injEq]
    constructor
    · norm_num [ratioOf, syntheticEnv]
    · norm_num [syntheticEnv]
      ring

/-- Witness for C2 at the synthetic scenario: 20 samples. -/
theorem claim_C2_witness :
    (runRatios (processVideoInBrowser syntheticEnv 100 5 50 0)).length = 20 :=
  (claim_C2 syntheticEnv 100 5 50 0 rfl rfl rfl (by norm_num) (by norm_num)
    (by norm_num [syntheticEnv])).2.2.1

/-- C4: `processVideoInBrowser` rejects with a configuration error exactly
when the derived sample count `totalDepth / scale` or the derived time
interval `duration / (totalDepth / scale)` is non-positive; on such a
rejection no seek and no progress call has happened; `scale = 0` and
`duration = 0` are rejections of this kind. -/
theorem claim_C4 (env : VideoEnv) (depth scale threshold trim : ℚ)
    (hcv : env.cvReady = true) (hctx : env.ctxOk = true) (hload : env.loadOk = true) :
    (((processVideoInBrowser env depth scale threshold trim).result =
        Except.error ProcError.configSampleCount ∨
      (processVideoInBrowser env depth scale threshold trim).result =
        Except.error ProcError.configTimeInterval) ↔
      (depth / scale ≤ 0 ∨ env.duration / (depth / scale) ≤ 0))
    ∧ ((depth / scale ≤ 0 ∨ env.duration / (depth / scale) ≤ 0) →
        (processVideoInBrowser env depth scale threshold trim).seeks = []
        ∧ (processVideoInBrowser env depth scale threshold trim).progress = [])
    ∧ (scale = 0 →
        (processVideoInBrowser env depth scale threshold trim).result =
          Except.error ProcError.configSampleCount)
    ∧ (env.duration = 0 →
        ((processVideoInBrowser env depth scale threshold trim).result =
           Except.error ProcError.configSampleCount ∨
         (processVideoInBrowser env depth scale threshold trim).result =
           Except.error ProcError.configTimeInterval)) := by
  have hcase : ∀ hc : depth / scale ≤ 0 ∨ env.duration / (depth / scale) ≤ 0,
      (processVideoInBrowser env depth scale threshold trim).result =
          Except.error ProcError.configSampleCount ∨
        (processVideoInBrowser env depth scale threshold trim).result =
          Except.error ProcError.configTimeInterval := by
    intro hc
    by_cases hts : depth / scale ≤ 0
    · left; rw [run_config₁ env depth scale threshold trim hcv hctx hload hts]
    · right
      have hti : env.duration / (depth / scale) ≤ 0 := hc.resolve_left hts
      rw [run_config₂ env depth scale threshold trim hcv hctx hload hts hti]
  have hempty : ∀ hc : depth / scale ≤ 0 ∨ env.duration / (depth / scale) ≤ 0,
      (processVideoInBrowser env depth scale threshold trim).seeks = []
      ∧ (processVideoInBrowser env depth scale threshold trim).progress = [] := by
    intro hc
    by_cases hts : depth / scale ≤ 0
    · rw [run_config₁ env depth scale threshold trim hcv hctx hload hts]
      exact ⟨rfl, rfl⟩
    · rw [run_config₂ env depth scale threshold trim hcv hctx hload hts
        (hc.resolve_left hts)]
      exact ⟨rfl, rfl⟩
  refine ⟨⟨?_, hcase⟩, hempty, ?_, ?_⟩
  · intro h
    by_contra hneg
    push_neg at hneg
    obtain ⟨h1, h2⟩ := hneg
    rw [processVideoInBrowser_ok env depth scale threshold trim hcv hctx hload h1 h2] at h
    simp at h
  · intro hs0
    subst hs0
    have hts : depth / 0 ≤ 0 := by rw [div_zero]
    rw [run_config₁ env depth 0 threshold trim hcv hctx hload hts]
  · intro hd0
    by_cases hts : depth / scale ≤ 0
    · left; rw [run_config₁ env depth scale threshold trim hcv hctx hload hts]
    · right
      have hti : env.duration / (depth / scale) ≤ 0 := by rw [hd0, zero_div]
      rw [run_config₂ env depth scale threshold trim hcv hctx hload hts hti]

/-- C5: in every successful run `onProgress` is called once per emitted
sample plus two boundary calls; the call list is `0`, then `t / duration`
for each sampled time `t`, then `1`; its first element is `0`, its last is
`1`, and it is non-decreasing throughout. -/
theorem claim_C5 (env : VideoEnv) (depth scale threshold trim : ℚ)
    (hcv : env.cvReady = true) (hctx : env.ctxOk = true) (hload : env.loadOk = true)
    (hdep : 0 < depth) (hsc : 0 < scale) (hdur : 0 < env.duration) :
    (processVideoInBrowser env depth scale threshold trim).progress.length =
      (runRatios (processVideoInBrowser env depth scale threshold trim)).length + 2
    ∧ (processVideoInBrowser env depth scale threshold trim).progress =
        0 :: ((processVideoInBrowser env depth scale threshold trim).seeks.map
          (fun t => t / env.duration)) ++ [1]
    ∧ (processVideoInBrowser env depth scale threshold trim).progress.head? = some 0
    ∧ (processVideoInBrowser env depth scale threshold trim).progress.getLast? = some 1
    ∧ (processVideoInBrowser env depth scale threshold trim).progress.Pairwise (· ≤ ·) := by
  have hts : 0 < depth / scale := div_pos hdep hsc
  have hti : 0 < env.duration / (depth / scale) := div_pos hdur hts
  have hrun := processVideoInBrowser_ok env depth scale threshold trim hcv hctx hload hts hti
  have hp : (processVideoInBrowser env depth scale threshold trim).progress =
      0 :: (timesFrom (env.duration / (depth / scale))
        (loopCount env.duration (env.duration / (depth / scale)) 0) 0).map
          (fun s => s / env.duration) ++ [1] := by
    rw [hrun]
  have hs : (processVideoInBrowser env depth scale threshold trim).seeks =
      timesFrom (env.duration / (depth / scale))
        (loopCount env.duration (env.duration / (depth / scale)) 0) 0 := by
    rw [hrun]
  have hmem : ∀ p ∈ (timesFrom (env.duration / (depth / scale))
      (loopCount env.duration (env.duration / (depth / scale)) 0) 0).map
        (fun s => s / env.duration), 0 ≤ p ∧ p ≤ 1 := by
    intro p hp'
    obtain ⟨s, hs', rfl⟩ := List.mem_map.mp hp'
    obtain ⟨h0, h1⟩ := timesFrom_zero_mem hti hs'
    exact ⟨div_nonneg h0 hdur.le, le_of_lt ((div_lt_one hdur).mpr h1)⟩
  refine ⟨?_, ?_, ?_, ?_, ?_⟩
  · rw [hp, hrun]
    simp [runRatios, timesFrom_length]
  · rw [hp, hs]
  · rw [hp]
    rfl
  · rw [hp, List.getLast?_concat]
  · rw [hp]
    refine List.pairwise_append.mpr ⟨?_, ?_, ?_⟩
    · refine List.pairwise_cons.mpr ⟨fun p hp' => (hmem p hp').1, ?_⟩
      refine List.Pairwise.map _ (fun a b hab => ?_) (timesFrom_pairwise hti.le _ 0)
      exact div_le_div_of_nonneg_right hab hdur.le
    · simp
    · intro a ha b hb
      simp only [List.mem_singleton] at hb
      subst hb
      rcases List.mem_cons.mp ha with h0 | hp'
      · subst h0
        norm_num
      · exact (hmem a hp').2

/-- C8: for every run with totalDepth > 0, scale > 0 and duration > 0, the
depth values of the returned series are non-decreasing and every depth
lies within `[0, totalDepth)`. -/
theorem claim_C8 (env : VideoEnv) (depth scale threshold trim : ℚ)
    (hcv : env.cvReady = true) (hctx : env.ctxOk = true) (hload : env.loadOk = true)
    (hdep : 0 < depth) (hsc : 0 < scale) (hdur : 0 < env.duration) :
    ((runRatios (processVideoInBrowser env depth scale threshold trim)).map
        FrameData.depth).Pairwise (· ≤ ·)
    ∧ ∀ fd ∈ runRatios (processVideoInBrowser env depth scale threshold trim),
        0 ≤ fd.depth ∧ fd.depth < depth := by
  have hts : 0 < depth / scale := div_pos hdep hsc
  have hti : 0 < env.duration / (depth / scale) := div_pos hdur hts
  have hrun := processVideoInBrowser_ok env depth scale threshold trim hcv hctx hload hts hti
  have hr : runRatios (processVideoInBrowser env depth scale threshold trim) =
      (timesFrom (env.duration / (depth / scale))
        (loopCount env.duration (env.duration / (depth / scale)) 0) 0).map (fun s =>
          { ratio := ratioOf env.videoHeight env.videoWidth
              (env.countNonZero threshold s) trim,
            depth := s / env.duration * depth }) := by
    rw [hrun]
    rfl
  constructor
  · rw [hr, List.map_map]
    refine List.Pairwise.map _ (fun a b hab => ?_) (timesFrom_pairwise hti.le _ 0)
    simp only [Function.comp_apply]
    exact mul_le_mul_of_nonneg_right (div_le_div_of_nonneg_right hab hdur.le) hdep.le
  · intro fd hfd
    rw [hr] at hfd
    obtain ⟨s, hs, rfl⟩ := List.mem_map.mp hfd
    obtain ⟨h0, h1⟩ := timesFrom_zero_mem hti hs
    refine ⟨mul_nonneg (div_nonneg h0 hdur.le) hdep.le, ?_⟩
    calc s / env.duration * depth < 1 * depth :=
        mul_lt_mul_of_pos_right ((div_lt_one hdur).mpr h1) hdep
      _ = depth := one_mul depth

/-- C3: the recorded ratio is exactly
`(foregroundCount + trim) / (width * height)` whenever `width * height`
is positive, with no clamping (a negative trim can drive it below `0`, a
large positive trim above `1`), and it is `0` when `width * height = 0`;
every ratio of a run's series is this analyzer value at some seek time. -/
theorem claim_C3 :
    (∀ rows cols count : ℕ, ∀ trim : ℚ, 0 < rows * cols →
        ratioOf rows cols count trim = ((count : ℚ) + trim) / ((rows : ℚ) * (cols : ℚ)))
    ∧ (∀ rows cols count : ℕ, ∀ trim : ℚ, rows * cols = 0 →
        ratioOf rows cols count trim = 0)
    ∧ ratioOf 2 2 1 (-5) < 0
    ∧ 1 < ratioOf 2 2 1 10
    ∧ ∀ (env : VideoEnv) (depth scale threshold trim : ℚ),
        ∀ fd ∈ runRatios (processVideoInBrowser env depth scale threshold trim),
          ∃ s : ℚ, fd.ratio =
            ratioOf env.videoHeight env.videoWidth (env.countNonZero threshold s) trim := by
  refine ⟨?_, ?_, by norm_num [ratioOf], by norm_num [ratioOf], ?_⟩
  · intro rows cols count trim h
    have hpos : (0 : ℚ) < (rows : ℚ) * (cols : ℚ) := by exact_mod_cast h
    simp only [ratioOf]
    rw [if_pos hpos]
  · intro rows cols count trim h
    have hz : (rows : ℚ) * (cols : ℚ) = 0 := by exact_mod_cast h
    simp only [ratioOf]
    rw [hz]
    norm_num
  · intro env dep scl th tr fd hfd
    cases hcv : env.cvReady with
    | false =>
      rw [run_cv_missing env dep scl th tr hcv] at hfd
      simp [runRatios] at hfd
    | true =>
    cases hctx : env.ctxOk with
    | false =>
      rw [run_ctx_fail env dep scl th tr hcv hctx] at hfd
      simp [runRatios] at hfd
    | true =>
    cases hload : env.loadOk with
    | false =>
      rw [run_load_fail env dep scl th tr hcv hctx hload] at hfd
      simp [runRatios] at hfd
    | true =>
    by_cases hts : dep / scl ≤ 0
    · rw [run_config₁ env dep scl th tr hcv hctx hload hts] at hfd
      simp [runRatios] at hfd
    by_cases hti : env.duration / (dep / scl) ≤ 0
    · rw [run_config₂ env dep scl th tr hcv hctx hload hts hti] at hfd
      simp [runRatios] at hfd
    rw [processVideoInBrowser_ok env dep scl th tr hcv hctx hload
      (not_le.mp hts) (not_le.mp hti)] at hfd
    simp only [runRatios, List.mem_map] at hfd
    obtain ⟨s, hs, rfl⟩ := hfd
    exact ⟨s, rfl⟩

/-- C9: the configuration validation tests only the quotient
`totalDepth / scale` and the derived time interval, not the signs of the
individual parameters: with `totalDepth < 0` and `scale < 0` the run is
accepted without any configuration error, every emitted depth is `≤ 0`,
and as soon as there is a second sample its depth is negative. -/
theorem claim_C9 (env : VideoEnv) (depth scale threshold trim : ℚ)
    (hcv : env.cvReady = true) (hctx : env.ctxOk = true) (hload : env.loadOk = true)
    (hdep : depth < 0) (hsc : scale < 0) (hdur : 0 < env.duration) :
    (∃ r, (processVideoInBrowser env depth scale threshold trim).result = Except.ok r)
    ∧ (∀ fd ∈ runRatios (processVideoInBrowser env depth scale threshold trim),
        fd.depth ≤ 0)
    ∧ (1 < depth / scale →
        ∃ fd ∈ runRatios (processVideoInBrowser env depth scale threshold trim),
          fd.depth < 0) := by
  have hts : 0 < depth / scale := div_pos_iff.mpr (Or.inr ⟨hdep, hsc⟩)
  have hti : 0 < env.duration / (depth / scale) := div_pos hdur hts
  have hrun := processVideoInBrowser_ok env depth scale threshold trim hcv hctx hload hts hti
  have hr : runRatios (processVideoInBrowser env depth scale threshold trim) =
      (timesFrom (env.duration / (depth / scale))
        (loopCount env.duration (env.duration / (depth / scale)) 0) 0).map (fun s =>
          { ratio := ratioOf env.videoHeight env.videoWidth
              (env.countNonZero threshold s) trim,
            depth := s / env.duration * depth }) := by
    rw [hrun]
    rfl
  refine ⟨⟨_, by rw [hrun]⟩, ?_, ?_⟩
  · intro fd hfd
    rw [hr] at hfd
    obtain ⟨s, hs, rfl⟩ := List.mem_map.mp hfd
    obtain ⟨h0, _⟩ := timesFrom_zero_mem hti hs
    exact mul_nonpos_iff.mpr (Or.inl ⟨div_nonneg h0 hdur.le, hdep.le⟩)
  · intro h1
    have hn2 : 2 ≤ loopCount env.duration (env.duration / (depth / scale)) 0 := by
      rw [loopCount_zero env.duration (depth / scale) (ne_of_gt hdur)]
      have h2 : (1 : ℤ) < ⌈depth / scale⌉ := Int.lt_ceil.mpr (by exact_mod_cast h1)
      omega
    have hsmem : (0 + ((1 : ℕ) : ℚ) * (env.duration / (depth / scale))) ∈
        timesFrom (env.duration / (depth / scale))
          (loopCount env.duration (env.duration / (depth / scale)) 0) 0 := by
      rw [timesFrom_eq]
      exact List.mem_map.mpr ⟨1, List.mem_range.mpr (by omega), rfl⟩
    refine ⟨_, by rw [hr]; exact List.mem_map.mpr ⟨_, hsmem, rfl⟩, ?_⟩
    have hpos : 0 < (0 + ((1 : ℕ) : ℚ) * (env.duration / (depth / scale))) / env.duration := by
      rw [Nat.cast_one, one_mul, zero_add]
      exact div_pos hti hdur
    exact mul_neg_of_pos_of_neg hpos hdep

/-- C10: `getFrameForDisplay` clamps the requested time into
`[0, duration]` before seeking: the seek target is
`min(max(0, time), duration)`, so for every input time the function
succeeds and (for a non-negative duration) the seek stays in range. -/
theorem claim_C10 (env : VideoEnv) (time threshold : ℚ)
    (hcv : env.cvReady = true) (hctx : env.ctxOk = true) (hload : env.loadOk = true) :
    (getFrameForDisplay env time threshold).result =
      Except.ok (min (max 0 time) env.duration)
    ∧ (0 ≤ env.duration →
        0 ≤ min (max 0 time) env.duration ∧ min (max 0 time) env.duration ≤ env.duration) := by
  exact ⟨by simp [getFrameForDisplay, hcv, hctx, hload],
    fun h => ⟨le_min (le_max_left 0 time) h, min_le_right _ _⟩⟩

/-- C6: the frame viewer resolves the target time as
`value / totalDepth * duration` in depth mode,
`value / (totalDepth / scale) * duration` in frame-index mode, and
`value` unchanged in seconds mode, and reports out-of-range exactly when
the resolved time lies outside `[0, duration]`; in particular depth mode
with `value = 50, totalDepth = 100, duration = 120` resolves to `60`, and
seconds mode with `value = 200, duration = 120` is out of range. -/
theorem claim_C6 :
    (∀ viewerValue depth scale videoDuration : ℚ,
        handleShowImage ViewerMode.depth viewerValue depth scale videoDuration =
          if viewerValue / depth * videoDuration < 0 ∨
              viewerValue / depth * videoDuration > videoDuration
          then ViewerOutcome.outOfRange
          else ViewerOutcome.showFrame (viewerValue / depth * videoDuration))
    ∧ (∀ viewerValue depth scale videoDuration : ℚ,
        handleShowImage ViewerMode.frame viewerValue depth scale videoDuration =
          if viewerValue / (depth / scale) * videoDuration < 0 ∨
              viewerValue / (depth / scale) * videoDuration > videoDuration
          then ViewerOutcome.outOfRange
          else ViewerOutcome.showFrame (viewerValue / (depth / scale) * videoDuration))
    ∧ (∀ viewerValue depth scale videoDuration : ℚ,
        handleShowImage ViewerMode.seconds viewerValue depth scale videoDuration =
          if viewerValue < 0 ∨ viewerValue > videoDuration then ViewerOutcome.outOfRange
          else ViewerOutcome.showFrame viewerValue)
    ∧ handleShowImage ViewerMode.depth 50 100 5 120 = ViewerOutcome.showFrame 60
    ∧ handleShowImage ViewerMode.seconds 200 100 5 120 = ViewerOutcome.outOfRange := by
  refine ⟨fun v dep scl dur => rfl, fun v dep scl dur => rfl, fun v dep scl dur => rfl,
    ?_, ?_⟩
  · norm_num [handleShowImage]
  · norm_num [handleShowImage]

/-- Witness for C4: `scale = 0` (with `totalDepth = 100`) is rejected by the
first configuration check. -/
theorem claim_C4_witness :
    (processVideoInBrowser syntheticEnv 100 0 50 0).result =
      Except.error ProcError.configSampleCount :=
  (claim_C4 syntheticEnv 100 0 50 0 rfl rfl rfl).2.2.1 rfl

/-- Witness for C5 at the synthetic scenario: the first progress value is 0. -/
theorem claim_C5_witness :
    (processVideoInBrowser syntheticEnv 100 5 50 0).progress.head? = some 0 :=
  (claim_C5 syntheticEnv 100 5 50 0 rfl rfl rfl (by norm_num) (by norm_num)
    (by norm_num [syntheticEnv])).2.2.1

/-- Witness for C8 at the synthetic scenario: the depths are non-decreasing. -/
theorem claim_C8_witness :
    ((runRatios (processVideoInBrowser syntheticEnv 100 5 50 0)).map
      FrameData.depth).Pairwise (fun a b => a ≤ b) :=
  (claim_C8 syntheticEnv 100 5 50 0 rfl rfl rfl (by norm_num) (by norm_num)
    (by norm_num [syntheticEnv])).1

/-- Witness for C9: `totalDepth = -100`, `scale = -5` is accepted and emits
a sample of negative depth. -/
theorem claim_C9_witness :
    ∃ fd ∈ runRatios (processVideoInBrowser syntheticEnv (-100) (-5) 50 0),
      fd.depth < 0 :=
  (claim_C9 syntheticEnv (-100) (-5) 50 0 rfl rfl rfl (by norm_num) (by norm_num)
    (by norm_num [syntheticEnv])).2.2 (by norm_num)

/-- Witness for C10: a negative requested time is clamped to a successful
seek at the clamped target. -/
theorem claim_C10_witness :
    (getFrameForDisplay syntheticEnv (-3) 50).result =
      Except.ok (min (max 0 (-3 : ℚ)) syntheticEnv.duration) :=
  (claim_C10 syntheticEnv (-3) 50 rfl rfl rfl).1

/-- C1 (evidence): the object URL is not revoked on the
canvas-context-acquisition failure path and on the configuration-error
path of `processVideoInBrowser`, nor on the context-failure path of
`getFrameForDisplay`, although it was created there; it is revoked on the
success and load-failure paths. -/
theorem claim_C1_url_leak :
    ((processVideoInBrowser ctxFailEnv 100 5 50 0).urlCreated = true
      ∧ (processVideoInBrowser ctxFailEnv 100 5 50 0).result =
          Except.error ProcError.ctxFail
      ∧ (processVideoInBrowser ctxFailEnv 100 5 50 0).urlRevoked = false)
    ∧ ((processVideoInBrowser syntheticEnv 0 5 50 0).result =
          Except.error ProcError.configSampleCount
      ∧ (processVideoInBrowser syntheticEnv 0 5 50 0).urlCreated = true
      ∧ (processVideoInBrowser syntheticEnv 0 5 50 0).urlRevoked = false)
    ∧ ((getFrameForDisplay ctxFailEnv 3 50).urlCreated = true
      ∧ (getFrameForDisplay ctxFailEnv 3 50).result = Except.error ProcError.ctxFail
      ∧ (getFrameForDisplay ctxFailEnv 3 50).urlRevoked = false)
    ∧ (processVideoInBrowser syntheticEnv 100 5 50 0).urlRevoked = true
    ∧ (processVideoInBrowser loadFailEnv 100 5 50 0).urlRevoked = true
    ∧ (getFrameForDisplay syntheticEnv 3 50).urlRevoked = true
    ∧ (getFrameForDisplay loadFailEnv 3 50).urlRevoked = true := by
  have hctxrun := run_ctx_fail ctxFailEnv 100 5 50 0 rfl rfl
  have hcfg := run_config₁ syntheticEnv 0 5 50 0 rfl rfl rfl (by norm_num)
  have hok := processVideoInBrowser_ok syntheticEnv 100 5 50 0 rfl rfl rfl
    (by norm_num) (by norm_num [syntheticEnv])
  have hload := run_load_fail loadFailEnv 100 5 50 0 rfl rfl rfl
  refine ⟨⟨?_, ?_, ?_⟩, ⟨?_, ?_, ?_⟩, ⟨?_, ?_, ?_⟩, ?_, ?_, ?_, ?_⟩
  · rw [hctxrun]
  · rw [hctxrun]
  · rw [hctxrun]
  · rw [hcfg]
  · rw [hcfg]
  · rw [hcfg]
  · simp [getFrameForDisplay, ctxFailEnv, syntheticEnv]
  · simp [getFrameForDisplay, ctxFailEnv, syntheticEnv]
  · simp [getFrameForDisplay, ctxFailEnv, syntheticEnv]
  · rw [hok]
  · rw [hload]
  · simp [getFrameForDisplay, syntheticEnv]
  · simp [getFrameForDisplay, loadFailEnv, syntheticEnv]
